import Mathlib

/-!
# DataMask: the text endpoint (`text/mainrun/mainrun.go`)

A shallow embedding of the first-party logic of `mainrun.go`:

* the `KeepDomain` masker that `RegisterCustomRules` hands to the engine;
* `ProcessText`, the detect-then-deidentify pipeline;
* `handleTextAPI`, the HTTP adapter.

Go strings are byte sequences, so a string is a list of bytes.  A Go `panic`
is an explicit outcome.  The DLP engine (`dlpheader.EngineAPI`) and the JSON
codec (`encoding/json`) are external: they are parameters of the embedding.
-/

namespace DataMask

/-! ## Go strings -/

/-- A Go `byte`. -/
abbrev Byte := Fin 256

/-- A Go `string`: an immutable sequence of bytes. -/
abbrev GoString := List Byte

/-- UTF-8 encoding of one code point, as the Go compiler stores the characters
of a string literal. -/
def utf8Char (c : Char) : GoString :=
  let n := c.toNat
  if n < 0x80 then
    [Fin.ofNat n]
  else if n < 0x800 then
    [Fin.ofNat (0xC0 + n / 64), Fin.ofNat (0x80 + n % 64)]
  else if n < 0x10000 then
    [Fin.ofNat (0xE0 + n / 4096), Fin.ofNat (0x80 + n / 64 % 64), Fin.ofNat (0x80 + n % 64)]
  else
    [Fin.ofNat (0xF0 + n / 262144), Fin.ofNat (0x80 + n / 4096 % 64),
      Fin.ofNat (0x80 + n / 64 % 64), Fin.ofNat (0x80 + n % 64)]

/-- The bytes of a string literal of the source. -/
def utf8 (s : String) : GoString :=
  s.toList.flatMap utf8Char

/-- The byte `'@'` (0x40). -/
def atSign : Byte := 64

/-- Outcome of running a Go function body: it returns a value or it panics
with a run-time error. -/
inductive Outcome (α : Type) where
  | ret (a : α)
  | panic (msg : String)
  deriving DecidableEq, Repr

/-- Sequencing of outcomes: a panic aborts everything after it. -/
def Outcome.bind {α β : Type} (o : Outcome α) (f : α → Outcome β) : Outcome β :=
  match o with
  | .ret a => f a
  | .panic m => .panic m

/-- An `error` value: `none` is `nil`, `some m` an error whose `Error()` is `m`. -/
abbrev GoError := Option GoString

/-- Go's `strings.Split(s, sep)` for a separator `sep` of one byte: the substrings of
`s` between the occurrences of the separator, in order.  Always non-empty; an
`s` without the separator gives `[s]`. -/
def Split (s : GoString) (sep : Byte) : List GoString :=
  match s with
  | [] => [[]]
  | c :: cs =>
    if c = sep then
      [] :: Split cs sep
    else
      match Split cs sep with
      | [] => [[c]]
      | p :: ps => (c :: p) :: ps

/-- The index expression `a[i]` on a slice: panics when `i` is out of range. -/
def index {α : Type} (a : List α) (i : Nat) : Outcome α :=
  match a.get? i with
  | some x => .ret x
  | none => .panic s!"runtime error: index out of range [{i}] with length {a.length}"

/-- The slice expression `s[lo:]` on a string, `lo` a run-time `int`: panics
unless `0 ≤ lo ≤ len(s)`. -/
def sliceFrom (s : GoString) (lo : Int) : Outcome GoString :=
  if lo < 0 ∨ (s.length : Int) < lo then
    .panic s!"runtime error: slice bounds out of range [{lo}:]"
  else
    .ret (s.drop lo.toNat)

/-- The function literal of `RegisterCustomRules` (mainrun.go:35-41):
```go
parts := strings.Split(email, "@")
if len(parts) != 2 {
    return email, fmt.Errorf("invalid email format")
}
return fmt.Sprintf("***%s@%s", parts[0][len(parts[0])-1:], parts[1]), nil
```
-/
def KeepDomain (email : GoString) : Outcome (GoString × GoError) :=
  let parts := Split email atSign
  if parts.length ≠ 2 then
    .ret (email, some (utf8 "invalid email format"))
  else
    (index parts 0).bind fun p0 =>
    (sliceFrom p0 ((p0.length : Int) - 1)).bind fun last =>
    (index parts 1).bind fun p1 =>
    .ret (utf8 "***" ++ last ++ utf8 "@" ++ p1, none)

/-- The method `RegisterCustomRules` (mainrun.go:33-42): one call of the engine's
`RegisterMasker`, with the name `"KeepDomain"` and the masker above. -/
def RegisterCustomRules {σ : Type}
    (RegisterMasker : GoString → (GoString → Outcome (GoString × GoError)) → σ → σ)
    (engine : σ) : σ :=
  RegisterMasker (utf8 "KeepDomain") KeepDomain engine

/-! ## The external collaborators -/

/-- The methods of `dlpheader.EngineAPI` that a request reaches.  The engine is a
black box with internal state `σ`; `ρ` is the type of one detection result.
Each method returns its Go result tuple and the engine's next state. -/
structure EngineAPI (σ ρ : Type) where
  /-- Method `Detect(text) ([]*DetectResult, error)`. -/
  Detect : GoString → σ → (List ρ × GoError) × σ
  /-- Method `Deidentify(text) (string, []*DetectResult, error)`. -/
  Deidentify : GoString → σ → (GoString × List ρ × GoError) × σ

/-- The type `DLPHandler`, a struct with the one field `engine dlpheader.EngineAPI`
(mainrun.go:13-15). -/
structure DLPHandler (σ ρ : Type) where
  engine : EngineAPI σ ρ

/-- The two uses of `encoding/json` in the handler. -/
structure JSON where
  /-- The call `json.NewDecoder(body).Decode(&request)` for the request struct
  `struct { Text string }` with tag `json:"text"`: the `Text` field after the
  call, and the error. -/
  Decode : GoString → GoString × GoError
  /-- The bytes `json.NewEncoder(w).Encode(m)` writes for a `map[string]string`,
  given as its list of entries. -/
  Encode : List (GoString × GoString) → GoString

/-- What a request does to the world outside the response, in order. -/
inductive Event where
  /-- The request body is read (`json.NewDecoder(r.Body).Decode`). -/
  | readBody
  /-- A call `engine.Detect(text)`. -/
  | detect (text : GoString)
  /-- A call `engine.Deidentify(text)`. -/
  | deidentify (text : GoString)
  /-- A call `log.Printf(format, n)`. -/
  | logPrintf (format : GoString) (n : Nat)
  deriving DecidableEq, Repr

/-- The state a request runs in: the engine's state and the events so far. -/
structure World (σ : Type) where
  engine : σ
  trace : List Event

/-- Append one event to the trace. -/
def World.emit {σ : Type} (w : World σ) (e : Event) : World σ :=
  { w with trace := w.trace ++ [e] }

/-! ## `net/http` -/

/-- The fields of `*http.Request` the handler looks at. -/
structure Request where
  Method : GoString
  Body : GoString

/-- An `http.ResponseWriter`: the header map, the status line and header sent
(once `WriteHeader` has happened), and the body bytes written. -/
structure ResponseWriter where
  header : List (GoString × GoString)
  wroteHeader : Option (Nat × List (GoString × GoString))
  body : GoString
  deriving DecidableEq, Repr

/-- The writer a handler is called with: nothing set, nothing written. -/
def newResponseWriter : ResponseWriter :=
  { header := [], wroteHeader := none, body := [] }

/-- The call `w.Header().Set(key, value)`: the key gets the single value `value`.  (The
keys of the handler are already in canonical form.) -/
def ResponseWriter.HeaderSet (w : ResponseWriter) (key value : GoString) : ResponseWriter :=
  { w with header := w.header.filter (fun kv => kv.1 ≠ key) ++ [(key, value)] }

/-- The call `w.WriteHeader(code)`: sends the status line and the header map as it is
now; a second call changes nothing. -/
def ResponseWriter.WriteHeader (w : ResponseWriter) (code : Nat) : ResponseWriter :=
  match w.wroteHeader with
  | some _ => w
  | none => { w with wroteHeader := some (code, w.header) }

/-- The call `w.Write(data)`: an implicit `WriteHeader(200)` if no header was written
yet, then the bytes are appended to the body. -/
def ResponseWriter.Write (w : ResponseWriter) (data : GoString) : ResponseWriter :=
  let w := w.WriteHeader 200
  { w with body := w.body ++ data }

/-- The status code sent, if any. -/
def ResponseWriter.status (w : ResponseWriter) : Option Nat :=
  w.wroteHeader.map (fun p => p.1)

/-- The headers sent with the status line. -/
def ResponseWriter.sentHeader (w : ResponseWriter) : List (GoString × GoString) :=
  match w.wroteHeader with
  | some p => p.2
  | none => []

/-- Constant `http.MethodOptions`. -/
def MethodOptions : GoString := utf8 "OPTIONS"

/-- Constant `http.MethodPost`. -/
def MethodPost : GoString := utf8 "POST"

/-- Constant `http.StatusOK`. -/
def StatusOK : Nat := 200

/-- Constant `http.StatusBadRequest`. -/
def StatusBadRequest : Nat := 400

/-- Constant `http.StatusMethodNotAllowed`. -/
def StatusMethodNotAllowed : Nat := 405

/-- Constant `http.StatusInternalServerError`. -/
def StatusInternalServerError : Nat := 500

/-! ## `ProcessText` and `handleTextAPI` -/

/-- The method `ProcessText` (mainrun.go:45-59):
```go
results, err := h.engine.Detect(content)
if err != nil {
    return "", fmt.Errorf("检测失败: %v", err)
}
log.Printf("检测到%d条敏感信息", len(results))
masked, _, err := h.engine.Deidentify(content)
if err != nil {
    return "", fmt.Errorf("脱敏失败: %v", err)
}
return masked, nil
```
-/
def ProcessText {σ ρ : Type} (h : DLPHandler σ ρ) (content : GoString) (world : World σ) :
    (GoString × GoError) × World σ :=
  let detected := h.engine.Detect content world.engine
  let world : World σ := { engine := detected.2, trace := world.trace ++ [Event.detect content] }
  match detected.1.2 with
  | some err => (([], some (utf8 "检测失败: " ++ err)), world)
  | none =>
    let world := world.emit (Event.logPrintf (utf8 "检测到%d条敏感信息") detected.1.1.length)
    let deid := h.engine.Deidentify content world.engine
    let world : World σ :=
      { engine := deid.2, trace := world.trace ++ [Event.deidentify content] }
    match deid.1.2.2 with
    | some err => (([], some (utf8 "脱敏失败: " ++ err)), world)
    | none => ((deid.1.1, none), world)

/-- The handler function `handleTextAPI(handler)` returns (mainrun.go:63-104),
run on the writer `w` and the request `r`. -/
def handleTextAPI {σ ρ : Type} (handler : DLPHandler σ ρ) (json : JSON)
    (w : ResponseWriter) (r : Request) (world : World σ) : ResponseWriter × World σ :=
  let w := w.HeaderSet (utf8 "Access-Control-Allow-Origin") (utf8 "*")
  let w := w.HeaderSet (utf8 "Access-Control-Allow-Methods") (utf8 "POST, OPTIONS")
  let w := w.HeaderSet (utf8 "Access-Control-Allow-Headers") (utf8 "Content-Type")
  let w := w.HeaderSet (utf8 "Content-Type") (utf8 "application/json")
  if r.Method = MethodOptions then
    (w.WriteHeader StatusOK, world)
  else if r.Method ≠ MethodPost then
    let w := w.WriteHeader StatusMethodNotAllowed
    (w.Write (json.Encode [(utf8 "error", utf8 "method not allowed")]), world)
  else
    let request := json.Decode r.Body
    let world := world.emit Event.readBody
    match request.2 with
    | some _ =>
      let w := w.WriteHeader StatusBadRequest
      (w.Write (json.Encode [(utf8 "error", utf8 "invalid request body")]), world)
    | none =>
      let processed := ProcessText handler request.1 world
      match processed.1.2 with
      | some err =>
        let w := w.WriteHeader StatusInternalServerError
        (w.Write (json.Encode [(utf8 "error", err)]), processed.2)
      | none =>
        (w.Write (json.Encode [(utf8 "result", processed.1.1)]), processed.2)

/-- The header map once the handler has made its four `Set` calls. -/
def corsHeader : List (GoString × GoString) :=
  [(utf8 "Access-Control-Allow-Origin", utf8 "*"),
   (utf8 "Access-Control-Allow-Methods", utf8 "POST, OPTIONS"),
   (utf8 "Access-Control-Allow-Headers", utf8 "Content-Type"),
   (utf8 "Content-Type", utf8 "application/json")]

/-- The writer after the four `Set` calls of the handler on a fresh writer. -/
def corsWriter : ResponseWriter :=
  { header := corsHeader, wroteHeader := none, body := [] }

/-! ## Concrete collaborators for the examples -/

/-- An engine for the examples: it keeps a count of the calls made to it;
`Detect` fails on the text `"boom"`, `Deidentify` fails on the text `"half"`,
and every other text is masked to `"***"` with one finding. -/
def demoEngine : EngineAPI Nat Nat where
  Detect := fun text n =>
    if text = utf8 "boom" then (([], some (utf8 "engine down")), n + 1)
    else (([0], none), n + 1)
  Deidentify := fun text n =>
    if text = utf8 "half" then (([], [], some (utf8 "mask failed")), n + 1)
    else ((utf8 "***", [0], none), n + 1)

/-- The handler around `demoEngine`. -/
def demoHandler : DLPHandler Nat Nat := { engine := demoEngine }

/-- A decoder for the examples: a body `{"text":"t"}`, `t` without quote
or backslash, decodes to `t`; every other body is an error. -/
def demoDecode (body : GoString) : GoString × GoError :=
  let pre := utf8 "\x7b\"text\":\""
  let suf := utf8 "\"\x7d"
  let t := (body.drop pre.length).take (body.length - pre.length - suf.length)
  if body = pre ++ t ++ suf ∧ (34 : Byte) ∉ t ∧ (92 : Byte) ∉ t then
    (t, none)
  else
    ([], some (utf8 "invalid character"))

/-- An encoder for the examples: the entries as a JSON object, strings written
without escapes, and the newline `Encode` ends with. -/
def demoEncode (m : List (GoString × GoString)) : GoString :=
  utf8 "\x7b" ++
    (utf8 ",").intercalate (m.map fun kv => utf8 "\"" ++ kv.1 ++ utf8 "\":\"" ++ kv.2 ++ utf8 "\"") ++
    utf8 "\x7d\n"

/-- The codec of the examples. -/
def demoJSON : JSON := { Decode := demoDecode, Encode := demoEncode }

/-- The world before a request: the engine has served no call. -/
def world0 : World Nat := { engine := 0, trace := [] }

/-- The `POST` request of the examples whose body is `\x7b"text":"t"\x7d`. -/
def postText (t : String) : Request :=
  { Method := utf8 "POST", Body := utf8 "\x7b\"text\":\"" ++ utf8 t ++ utf8 "\"\x7d" }

/-! ## Lemmas on `Split` -/

theorem Split_ne_nil (s : GoString) (sep : Byte) : Split s sep ≠ [] := by
  induction s with
  | nil => simp [Split]
  | cons c cs ih =>
    unfold Split
    split
    · simp
    · split
      · simp
      · simp

theorem Split_length (s : GoString) (sep : Byte) :
    (Split s sep).length = s.count sep + 1 := by
  induction s with
  | nil => simp [Split]
  | cons c cs ih =>
    unfold Split
    by_cases h : c = sep
    · subst h
      simp [ih]
    · rw [if_neg h, List.count_cons_of_ne (Ne.symm h)]
      cases hs : Split cs sep with
      | nil => exact absurd hs (Split_ne_nil cs sep)
      | cons p ps =>
        rw [hs] at ih
        simpa using ih

theorem Split_of_not_mem (s : GoString) (sep : Byte) (h : sep ∉ s) :
    Split s sep = [s] := by
  induction s with
  | nil => simp [Split]
  | cons c cs ih =>
    have hc : c ≠ sep := fun e => h (by simp [e])
    have hcs : sep ∉ cs := fun e => h (List.mem_cons_of_mem _ e)
    unfold Split
    rw [if_neg hc, ih hcs]

theorem Split_append_sep (l d : GoString) (sep : Byte) (h : sep ∉ l) :
    Split (l ++ sep :: d) sep = l :: Split d sep := by
  induction l with
  | nil => simp [Split]
  | cons c cs ih =>
    have hc : c ≠ sep := fun e => h (by simp [e])
    have hcs : sep ∉ cs := fun e => h (List.mem_cons_of_mem _ e)
    have e : Split (c :: (cs ++ sep :: d)) sep =
        match Split (cs ++ sep :: d) sep with
        | [] => [[c]]
        | p :: ps => (c :: p) :: ps := by
      rw [Split, if_neg hc]
    rw [List.cons_append, e, ih hcs]

/-- A string with exactly one separator is `l ++ sep :: d` with no separator in
`l` or `d`. -/
theorem exists_parts_of_count_one (s : GoString) (sep : Byte) (h : s.count sep = 1) :
    ∃ l d, s = l ++ sep :: d ∧ sep ∉ l ∧ sep ∉ d := by
  induction s with
  | nil => simp at h
  | cons c cs ih =>
    by_cases hc : c = sep
    · subst hc
      refine ⟨[], cs, rfl, by simp, ?_⟩
      rw [List.count_cons_self] at h
      exact List.count_eq_zero.mp (by omega)
    · rw [List.count_cons_of_ne (Ne.symm hc)] at h
      obtain ⟨l, d, e, hl, hd⟩ := ih h
      refine ⟨c :: l, d, by simp [e], ?_, hd⟩
      simp only [List.mem_cons, not_or]
      exact ⟨Ne.symm hc, hl⟩

theorem drop_length_pred (l : GoString) (h : l ≠ []) :
    l.drop (l.length - 1) = [l.getLast h] := by
  induction l with
  | nil => exact absurd rfl h
  | cons a t ih =>
    cases t with
    | nil => rfl
    | cons b t =>
      have := ih (by simp)
      simpa using this

theorem sliceFrom_last (l : GoString) (h : l ≠ []) :
    sliceFrom l ((l.length : Int) - 1) = .ret [l.getLast h] := by
  have hpos : 0 < l.length := List.length_pos.mpr h
  unfold sliceFrom
  rw [if_neg (by omega)]
  have : ((l.length : Int) - 1).toNat = l.length - 1 := by omega
  rw [this, drop_length_pred l h]

/-- The masker on `l ++ "@" ++ d`, `l` non-empty, no `'@'` in `l` or `d`. -/
theorem KeepDomain_parts (l d : GoString) (hl : atSign ∉ l) (hd : atSign ∉ d) (hne : l ≠ []) :
    KeepDomain (l ++ atSign :: d) =
      .ret (utf8 "***" ++ [l.getLast hne] ++ utf8 "@" ++ d, none) := by
  unfold KeepDomain
  simp only [Split_append_sep l d atSign hl, Split_of_not_mem d atSign hd]
  simp [index, Outcome.bind, sliceFrom_last l hne]

/-- The masker on `"@" ++ d`, no `'@'` in `d`: the slice start is `-1`. -/
theorem KeepDomain_empty_local (d : GoString) (hd : atSign ∉ d) :
    KeepDomain (atSign :: d) =
      .panic "runtime error: slice bounds out of range [-1:]" := by
  unfold KeepDomain
  have := Split_append_sep [] d atSign (by simp)
  simp only [List.nil_append] at this
  simp only [this, Split_of_not_mem d atSign hd]
  simp [index, Outcome.bind, sliceFrom]
  decide

/-- The masker on a string whose number of `'@'` is not one. -/
theorem KeepDomain_count_ne_one (email : GoString) (h : email.count atSign ≠ 1) :
    KeepDomain email = .ret (email, some (utf8 "invalid email format")) := by
  unfold KeepDomain
  have : (Split email atSign).length ≠ 2 := by
    rw [Split_length]; omega
  simp [this]

/-! ## The `KeepDomain` masker -/

/-- C1: the masker is claimed to return `"***" ++ last ++ "@" ++ domain` whenever
the input has exactly one `'@'`.  On `"@example.com"`, which has exactly one
`'@'` (splitting gives the two parts `""` and `"example.com"`), the code
instead panics: the slice `parts[0][len(parts[0])-1:]` has start index `-1`. -/
theorem KeepDomain_at_example_com_panics :
    (utf8 "@example.com").count atSign = 1 ∧
    Split (utf8 "@example.com") atSign = [utf8 "", utf8 "example.com"] ∧
    KeepDomain (utf8 "@example.com") =
      .panic "runtime error: slice bounds out of range [-1:]" := by
  decide

/-- The example of the specification: `alice@example.com` gives
`***e@example.com` and no error. -/
theorem KeepDomain_alice :
    KeepDomain (utf8 "alice@example.com") = .ret (utf8 "***e@example.com", none) := by
  decide

/-- C2: on every input whose number of `'@'` is not one (none, or two or more),
the masker returns (it does not panic) the input unchanged together with the
non-nil error `invalid email format`. -/
theorem KeepDomain_rejects_unless_one_at (email : GoString)
    (h : email.count atSign ≠ 1) :
    KeepDomain email = .ret (email, some (utf8 "invalid email format")) :=
  KeepDomain_count_ne_one email h

/-- C2 at `a@b@c` (two separators). -/
theorem KeepDomain_rejects_unless_one_at_witness :
    (utf8 "a@b@c").count atSign ≠ 1 ∧
    KeepDomain (utf8 "a@b@c") = .ret (utf8 "a@b@c", some (utf8 "invalid email format")) :=
  ⟨by decide, KeepDomain_rejects_unless_one_at (utf8 "a@b@c") (by decide)⟩

/-- C8 as stated fails: on `a@b.com` the masker does not produce `***m@b.com`. -/
theorem KeepDomain_a_b_com_not_m :
    KeepDomain (utf8 "a@b.com") ≠ .ret (utf8 "***m@b.com", none) := by
  decide

/-- C8, amended: on `a@b.com` the masker returns no error and produces
`***a@b.com` (the last byte of the local part `a` is `a`). -/
theorem KeepDomain_a_b_com :
    KeepDomain (utf8 "a@b.com") = .ret (utf8 "***a@b.com", none) := by
  decide

/-- C9: the masker panics exactly on the inputs with exactly one `'@'`, placed
first (empty local part), and then with slice start index `-1`; on every other
input it returns.  When the input has exactly one `'@'` and a non-empty part
before it, the split has two parts, the first non-empty, and the slice
`parts[0][len(parts[0])-1:]` is in bounds: it is the last byte of that part. -/
theorem KeepDomain_panics_iff (email : GoString) :
    ((∃ msg, KeepDomain email = .panic msg) ↔
      (email.count atSign = 1 ∧ email.head? = some atSign)) ∧
    ((email.count atSign = 1 ∧ email.head? = some atSign) →
      KeepDomain email = .panic "runtime error: slice bounds out of range [-1:]") ∧
    (¬ (email.count atSign = 1 ∧ email.head? = some atSign) →
      ∃ r, KeepDomain email = .ret r) ∧
    (email.count atSign = 1 → email.head? ≠ some atSign →
      ∃ p0 p1 b, Split email atSign = [p0, p1] ∧ p0 ≠ [] ∧
        sliceFrom p0 ((p0.length : Int) - 1) = .ret [b] ∧
        KeepDomain email = .ret (utf8 "***" ++ [b] ++ utf8 "@" ++ p1, none)) := by
  have hpanic : (email.count atSign = 1 ∧ email.head? = some atSign) →
      KeepDomain email = .panic "runtime error: slice bounds out of range [-1:]" := by
    rintro ⟨hc, hh⟩
    obtain ⟨l, d, e, hl, hd⟩ := exists_parts_of_count_one email atSign hc
    cases l with
    | nil =>
      subst e
      exact KeepDomain_empty_local d hd
    | cons c cs =>
      subst e
      simp only [List.cons_append, List.head?_cons, Option.some.injEq] at hh
      subst hh
      simp at hl
  have hgood : email.count atSign = 1 → email.head? ≠ some atSign →
      ∃ p0 p1 b, Split email atSign = [p0, p1] ∧ p0 ≠ [] ∧
        sliceFrom p0 ((p0.length : Int) - 1) = .ret [b] ∧
        KeepDomain email = .ret (utf8 "***" ++ [b] ++ utf8 "@" ++ p1, none) := by
    intro hc hh
    obtain ⟨l, d, e, hl, hd⟩ := exists_parts_of_count_one email atSign hc
    subst e
    have hne : l ≠ [] := by
      rintro rfl
      exact hh rfl
    refine ⟨l, d, l.getLast hne, ?_, hne, sliceFrom_last l hne, KeepDomain_parts l d hl hd hne⟩
    rw [Split_append_sep l d atSign hl, Split_of_not_mem d atSign hd]
  have hret : ¬ (email.count atSign = 1 ∧ email.head? = some atSign) →
      ∃ r, KeepDomain email = .ret r := by
    intro hn
    by_cases hc : email.count atSign = 1
    · have hh : email.head? ≠ some atSign := fun e => hn ⟨hc, e⟩
      obtain ⟨p0, p1, b, _, _, _, hk⟩ := hgood hc hh
      exact ⟨_, hk⟩
    · exact ⟨_, KeepDomain_count_ne_one email hc⟩
  refine ⟨⟨?_, fun h => ⟨_, hpanic h⟩⟩, hpanic, hret, hgood⟩
  rintro ⟨msg, hm⟩
  by_contra hn
  obtain ⟨r, hr⟩ := hret hn
  rw [hr] at hm
  exact Outcome.noConfusion hm

/-- C10: two inputs `l1@d` and `l2@d`, each with exactly one `'@'`, with
non-empty local parts that end in the same byte, are masked to the same output,
returned without error; its length is `5 + len(d)`. -/
theorem KeepDomain_reveals_only_last_byte (l1 l2 d : GoString)
    (h1 : (l1 ++ atSign :: d).count atSign = 1)
    (h2 : (l2 ++ atSign :: d).count atSign = 1)
    (n1 : l1 ≠ []) (n2 : l2 ≠ [])
    (hlast : l1.getLast n1 = l2.getLast n2) :
    ∃ out, KeepDomain (l1 ++ atSign :: d) = .ret (out, none) ∧
      KeepDomain (l2 ++ atSign :: d) = .ret (out, none) ∧
      out.length = 5 + d.length := by
  rw [List.count_append, List.count_cons_self] at h1 h2
  have hl1 : atSign ∉ l1 := List.count_eq_zero.mp (by omega)
  have hl2 : atSign ∉ l2 := List.count_eq_zero.mp (by omega)
  have hd : atSign ∉ d := List.count_eq_zero.mp (by omega)
  refine ⟨utf8 "***" ++ [l1.getLast n1] ++ utf8 "@" ++ d, KeepDomain_parts l1 d hl1 hd n1, ?_, ?_⟩
  · rw [hlast]
    exact KeepDomain_parts l2 d hl2 hd n2
  · have e3 : (utf8 "***").length = 3 := by decide
    have e1 : (utf8 "@").length = 1 := by decide
    simp only [List.length_append, List.length_cons, List.length_nil, e3, e1]

/-- C10 at `alice@example.com` and `e@example.com`. -/
theorem KeepDomain_reveals_only_last_byte_witness :
    ∃ out, KeepDomain (utf8 "alice@example.com") = .ret (out, none) ∧
      KeepDomain (utf8 "e@example.com") = .ret (out, none) ∧
      out.length = 5 + (utf8 "example.com").length :=
  KeepDomain_reveals_only_last_byte (utf8 "alice") (utf8 "e") (utf8 "example.com")
    (by decide) (by decide) (by decide) (by decide) (by decide)

/-! ## The handler -/

theorem HeaderSet_four :
    (((newResponseWriter.HeaderSet (utf8 "Access-Control-Allow-Origin") (utf8 "*")).HeaderSet
      (utf8 "Access-Control-Allow-Methods") (utf8 "POST, OPTIONS")).HeaderSet
      (utf8 "Access-Control-Allow-Headers") (utf8 "Content-Type")).HeaderSet
      (utf8 "Content-Type") (utf8 "application/json") = corsWriter := by
  decide

theorem MethodPost_ne_MethodOptions : MethodPost ≠ MethodOptions := by
  decide

/-- The handler on a request whose method is `OPTIONS`. -/
theorem handleTextAPI_options {σ ρ : Type} (handler : DLPHandler σ ρ) (json : JSON)
    (r : Request) (world : World σ) (hm : r.Method = MethodOptions) :
    handleTextAPI handler json newResponseWriter r world =
      ({ header := corsHeader, wroteHeader := some (200, corsHeader), body := [] }, world) := by
  unfold handleTextAPI
  dsimp only
  rw [HeaderSet_four]
  simp only [hm, if_true]
  rfl

/-- The handler on a request whose method is neither `OPTIONS` nor `POST`. -/
theorem handleTextAPI_other {σ ρ : Type} (handler : DLPHandler σ ρ) (json : JSON)
    (r : Request) (world : World σ) (ho : r.Method ≠ MethodOptions)
    (hp : r.Method ≠ MethodPost) :
    handleTextAPI handler json newResponseWriter r world =
      ({ header := corsHeader, wroteHeader := some (405, corsHeader),
         body := json.Encode [(utf8 "error", utf8 "method not allowed")] }, world) := by
  unfold handleTextAPI
  dsimp only
  rw [HeaderSet_four]
  simp only [if_neg ho, hp, ne_eq, not_false_eq_true, if_true]
  rfl

/-- The handler on a `POST` request whose body does not decode. -/
theorem handleTextAPI_bad_body {σ ρ : Type} (handler : DLPHandler σ ρ) (json : JSON)
    (r : Request) (world : World σ) (hm : r.Method = MethodPost)
    (text err : GoString) (hbody : json.Decode r.Body = (text, some err)) :
    handleTextAPI handler json newResponseWriter r world =
      ({ header := corsHeader, wroteHeader := some (400, corsHeader),
         body := json.Encode [(utf8 "error", utf8 "invalid request body")] },
       world.emit Event.readBody) := by
  unfold handleTextAPI
  dsimp only
  rw [HeaderSet_four]
  simp only [hm, if_neg MethodPost_ne_MethodOptions, ne_eq, not_true_eq_false, if_false, hbody]
  rfl

/-- The handler on a `POST` request whose body decodes to `text`, in terms of
what `ProcessText` returns on `text`. -/
theorem handleTextAPI_post {σ ρ : Type} (handler : DLPHandler σ ρ) (json : JSON)
    (r : Request) (world : World σ) (hm : r.Method = MethodPost)
    (text : GoString) (hbody : json.Decode r.Body = (text, none)) :
    handleTextAPI handler json newResponseWriter r world =
      match (ProcessText handler text (world.emit Event.readBody)).1.2 with
      | some err =>
        ({ header := corsHeader, wroteHeader := some (500, corsHeader),
           body := json.Encode [(utf8 "error", err)] },
         (ProcessText handler text (world.emit Event.readBody)).2)
      | none =>
        ({ header := corsHeader, wroteHeader := some (200, corsHeader),
           body := json.Encode [(utf8 "result",
             (ProcessText handler text (world.emit Event.readBody)).1.1)] },
         (ProcessText handler text (world.emit Event.readBody)).2) := by
  unfold handleTextAPI
  dsimp only
  rw [HeaderSet_four]
  simp only [hm, if_neg MethodPost_ne_MethodOptions, ne_eq, not_true_eq_false, if_false, hbody]
  cases (ProcessText handler text (world.emit Event.readBody)).1.2 <;> rfl

/-- The pipeline `ProcessText` when `Detect` fails. -/
theorem ProcessText_detect_fails {σ ρ : Type} (h : DLPHandler σ ρ) (content : GoString)
    (world : World σ) (found : List ρ) (msg : GoString) (e1 : σ)
    (hdet : h.engine.Detect content world.engine = ((found, some msg), e1)) :
    ProcessText h content world =
      (([], some (utf8 "检测失败: " ++ msg)),
       { engine := e1, trace := world.trace ++ [Event.detect content] }) := by
  simp [ProcessText, hdet]

/-- The pipeline `ProcessText` when `Detect` succeeds and `Deidentify` fails. -/
theorem ProcessText_deidentify_fails {σ ρ : Type} (h : DLPHandler σ ρ) (content : GoString)
    (world : World σ) (found found2 : List ρ) (masked msg : GoString) (e1 e2 : σ)
    (hdet : h.engine.Detect content world.engine = ((found, none), e1))
    (hdeid : h.engine.Deidentify content e1 = ((masked, found2, some msg), e2)) :
    ProcessText h content world =
      (([], some (utf8 "脱敏失败: " ++ msg)),
       { engine := e2,
         trace := world.trace ++ [Event.detect content,
           Event.logPrintf (utf8 "检测到%d条敏感信息") found.length,
           Event.deidentify content] }) := by
  simp [ProcessText, hdet, hdeid, World.emit]

/-- The pipeline `ProcessText` when both engine calls succeed. -/
theorem ProcessText_succeeds {σ ρ : Type} (h : DLPHandler σ ρ) (content : GoString)
    (world : World σ) (found found2 : List ρ) (masked : GoString) (e1 e2 : σ)
    (hdet : h.engine.Detect content world.engine = ((found, none), e1))
    (hdeid : h.engine.Deidentify content e1 = ((masked, found2, none), e2)) :
    ProcessText h content world =
      ((masked, none),
       { engine := e2,
         trace := world.trace ++ [Event.detect content,
           Event.logPrintf (utf8 "检测到%d条敏感信息") found.length,
           Event.deidentify content] }) := by
  simp [ProcessText, hdet, hdeid, World.emit]

/-- C3: on a `POST` request whose body decodes to the text `s`, when `Detect`
and then `Deidentify` succeed on `s`, the handler answers with status 200 and
the encoding of the map with the single entry `result`, whose value is the
masked text `Deidentify` returned; `ProcessText` returns that text and a nil
error. -/
theorem handleTextAPI_success {σ ρ : Type} (handler : DLPHandler σ ρ) (json : JSON)
    (r : Request) (world : World σ) (s masked : GoString) (found found2 : List ρ) (e1 e2 : σ)
    (hm : r.Method = MethodPost)
    (hbody : json.Decode r.Body = (s, none))
    (hdet : handler.engine.Detect s world.engine = ((found, none), e1))
    (hdeid : handler.engine.Deidentify s e1 = ((masked, found2, none), e2)) :
    (handleTextAPI handler json newResponseWriter r world).1.status = some 200 ∧
    (handleTextAPI handler json newResponseWriter r world).1.body =
      json.Encode [(utf8 "result", masked)] ∧
    (ProcessText handler s (world.emit Event.readBody)).1 = (masked, none) := by
  have hp := ProcessText_succeeds handler s (world.emit Event.readBody) found found2 masked
    e1 e2 hdet hdeid
  rw [handleTextAPI_post handler json r world hm s hbody, hp]
  exact ⟨rfl, rfl, rfl⟩

/-- C3 on the body `\x7b"text":"hi"\x7d` with the engine of the examples. -/
theorem handleTextAPI_success_witness :
    (handleTextAPI demoHandler demoJSON newResponseWriter (postText "hi") world0).1.status
      = some 200 ∧
    (handleTextAPI demoHandler demoJSON newResponseWriter (postText "hi") world0).1.body
      = demoJSON.Encode [(utf8 "result", utf8 "***")] ∧
    (ProcessText demoHandler (utf8 "hi") (world0.emit Event.readBody)).1 = (utf8 "***", none) :=
  handleTextAPI_success demoHandler demoJSON (postText "hi") world0 (utf8 "hi") (utf8 "***")
    [0] [0] 1 2 (by decide) (by decide) (by decide) (by decide)

/-- C4 as stated fails: when `Detect` fails with the message `engine down`, the
`error` field of the answer is not that message but `检测失败: engine down`. -/
theorem handleTextAPI_error_not_verbatim :
    (demoEngine.Detect (utf8 "boom") world0.engine).1.2 = some (utf8 "engine down") ∧
    (handleTextAPI demoHandler demoJSON newResponseWriter (postText "boom") world0).1.body
      ≠ demoJSON.Encode [(utf8 "error", utf8 "engine down")] ∧
    (handleTextAPI demoHandler demoJSON newResponseWriter (postText "boom") world0).1.body
      = demoJSON.Encode [(utf8 "error", utf8 "检测失败: engine down")] := by
  decide

/-- C4, amended: on a `POST` request whose body decodes to the text `s`, when
`Detect` fails with message `msg`, the handler answers with status 500 and the
encoding of the map with the single entry `error`, whose value is `检测失败: `
followed by `msg`; `ProcessText` returns the empty string with that error, and
`Deidentify` is not called (the only events are the body read and the `Detect`
call).  When `Detect` succeeds and `Deidentify` fails with message `msg`, the
answer is the same with `脱敏失败: ` followed by `msg`. -/
theorem handleTextAPI_engine_failure {σ ρ : Type} (handler : DLPHandler σ ρ) (json : JSON)
    (r : Request) (world : World σ) (s : GoString)
    (hm : r.Method = MethodPost)
    (hbody : json.Decode r.Body = (s, none)) :
    (∀ (found : List ρ) (msg : GoString) (e1 : σ),
      handler.engine.Detect s world.engine = ((found, some msg), e1) →
      (handleTextAPI handler json newResponseWriter r world).1.status = some 500 ∧
      (handleTextAPI handler json newResponseWriter r world).1.body =
        json.Encode [(utf8 "error", utf8 "检测失败: " ++ msg)] ∧
      (ProcessText handler s (world.emit Event.readBody)).1 =
        ([], some (utf8 "检测失败: " ++ msg)) ∧
      (handleTextAPI handler json newResponseWriter r world).2.engine = e1 ∧
      (handleTextAPI handler json newResponseWriter r world).2.trace =
        world.trace ++ [Event.readBody, Event.detect s]) ∧
    (∀ (found found2 : List ρ) (masked msg : GoString) (e1 e2 : σ),
      handler.engine.Detect s world.engine = ((found, none), e1) →
      handler.engine.Deidentify s e1 = ((masked, found2, some msg), e2) →
      (handleTextAPI handler json newResponseWriter r world).1.status = some 500 ∧
      (handleTextAPI handler json newResponseWriter r world).1.body =
        json.Encode [(utf8 "error", utf8 "脱敏失败: " ++ msg)] ∧
      (ProcessText handler s (world.emit Event.readBody)).1 =
        ([], some (utf8 "脱敏失败: " ++ msg))) := by
  constructor
  · intro found msg e1 hdet
    have hp := ProcessText_detect_fails handler s (world.emit Event.readBody) found msg e1 hdet
    rw [handleTextAPI_post handler json r world hm s hbody, hp]
    refine ⟨rfl, rfl, rfl, rfl, ?_⟩
    simp [World.emit]
  · intro found found2 masked msg e1 e2 hdet hdeid
    have hp := ProcessText_deidentify_fails handler s (world.emit Event.readBody) found found2
      masked msg e1 e2 hdet hdeid
    rw [handleTextAPI_post handler json r world hm s hbody, hp]
    exact ⟨rfl, rfl, rfl⟩

/-- C4, amended, on the bodies `\x7b"text":"boom"\x7d` (where `Detect` fails) and
`\x7b"text":"half"\x7d` (where `Deidentify` fails) with the engine of the examples. -/
theorem handleTextAPI_engine_failure_witness :
    ((handleTextAPI demoHandler demoJSON newResponseWriter (postText "boom") world0).1.status
        = some 500 ∧
      (handleTextAPI demoHandler demoJSON newResponseWriter (postText "boom") world0).1.body
        = demoJSON.Encode [(utf8 "error", utf8 "检测失败: " ++ utf8 "engine down")] ∧
      (ProcessText demoHandler (utf8 "boom") (world0.emit Event.readBody)).1
        = ([], some (utf8 "检测失败: " ++ utf8 "engine down")) ∧
      (handleTextAPI demoHandler demoJSON newResponseWriter (postText "boom") world0).2.engine
        = 1 ∧
      (handleTextAPI demoHandler demoJSON newResponseWriter (postText "boom") world0).2.trace
        = world0.trace ++ [Event.readBody, Event.detect (utf8 "boom")]) ∧
    ((handleTextAPI demoHandler demoJSON newResponseWriter (postText "half") world0).1.status
        = some 500 ∧
      (handleTextAPI demoHandler demoJSON newResponseWriter (postText "half") world0).1.body
        = demoJSON.Encode [(utf8 "error", utf8 "脱敏失败: " ++ utf8 "mask failed")] ∧
      (ProcessText demoHandler (utf8 "half") (world0.emit Event.readBody)).1
        = ([], some (utf8 "脱敏失败: " ++ utf8 "mask failed"))) :=
  ⟨(handleTextAPI_engine_failure demoHandler demoJSON (postText "boom") world0 (utf8 "boom")
      (by decide) (by decide)).1 [] (utf8 "engine down") 1 (by decide),
   (handleTextAPI_engine_failure demoHandler demoJSON (postText "half") world0 (utf8 "half")
      (by decide) (by decide)).2 [0] [] [] (utf8 "mask failed") 1 2 (by decide) (by decide)⟩

/-- C5: on a `POST` request whose body fails to decode, the handler answers with
status 400 and the encoding of the map with the single entry `error` of value
`invalid request body`; the engine is not called: its state is unchanged and
the only event is the body read. -/
theorem handleTextAPI_malformed_body {σ ρ : Type} (handler : DLPHandler σ ρ) (json : JSON)
    (r : Request) (world : World σ) (text err : GoString)
    (hm : r.Method = MethodPost)
    (hbody : json.Decode r.Body = (text, some err)) :
    (handleTextAPI handler json newResponseWriter r world).1.status = some 400 ∧
    (handleTextAPI handler json newResponseWriter r world).1.body =
      json.Encode [(utf8 "error", utf8 "invalid request body")] ∧
    (handleTextAPI handler json newResponseWriter r world).2.engine = world.engine ∧
    (handleTextAPI handler json newResponseWriter r world).2.trace =
      world.trace ++ [Event.readBody] := by
  rw [handleTextAPI_bad_body handler json r world hm text err hbody]
  exact ⟨rfl, rfl, rfl, rfl⟩

/-- C5 on the body `not json`. -/
theorem handleTextAPI_malformed_body_witness :
    (handleTextAPI demoHandler demoJSON newResponseWriter
      { Method := utf8 "POST", Body := utf8 "not json" } world0).1.status = some 400 ∧
    (handleTextAPI demoHandler demoJSON newResponseWriter
      { Method := utf8 "POST", Body := utf8 "not json" } world0).1.body =
      demoJSON.Encode [(utf8 "error", utf8 "invalid request body")] ∧
    (handleTextAPI demoHandler demoJSON newResponseWriter
      { Method := utf8 "POST", Body := utf8 "not json" } world0).2.engine = world0.engine ∧
    (handleTextAPI demoHandler demoJSON newResponseWriter
      { Method := utf8 "POST", Body := utf8 "not json" } world0).2.trace =
      world0.trace ++ [Event.readBody] :=
  handleTextAPI_malformed_body demoHandler demoJSON
    { Method := utf8 "POST", Body := utf8 "not json" } world0 [] (utf8 "invalid character")
    (by decide) (by decide)

/-- C6: on a request whose method is not `POST`, the handler reads no body and
calls no engine method (the world is unchanged).  If the method is `OPTIONS`
it answers with status 200 and an empty body; for every other method it
answers with status 405 and the encoding of the map with the single entry
`error` of value `method not allowed`. -/
theorem handleTextAPI_not_post {σ ρ : Type} (handler : DLPHandler σ ρ) (json : JSON)
    (r : Request) (world : World σ)
    (hm : r.Method ≠ MethodPost) :
    (handleTextAPI handler json newResponseWriter r world).2 = world ∧
    (r.Method = MethodOptions →
      (handleTextAPI handler json newResponseWriter r world).1.status = some 200 ∧
      (handleTextAPI handler json newResponseWriter r world).1.body = []) ∧
    (r.Method ≠ MethodOptions →
      (handleTextAPI handler json newResponseWriter r world).1.status = some 405 ∧
      (handleTextAPI handler json newResponseWriter r world).1.body =
        json.Encode [(utf8 "error", utf8 "method not allowed")]) := by
  by_cases ho : r.Method = MethodOptions
  · rw [handleTextAPI_options handler json r world ho]
    exact ⟨rfl, fun _ => ⟨rfl, rfl⟩, fun h => absurd ho h⟩
  · rw [handleTextAPI_other handler json r world ho hm]
    exact ⟨rfl, fun h => absurd h ho, fun _ => ⟨rfl, rfl⟩⟩

/-- C6 on a `GET` request and on an `OPTIONS` request. -/
theorem handleTextAPI_not_post_witness :
    ((handleTextAPI demoHandler demoJSON newResponseWriter
        { Method := utf8 "GET", Body := [] } world0).2 = world0 ∧
      (handleTextAPI demoHandler demoJSON newResponseWriter
        { Method := utf8 "GET", Body := [] } world0).1.status = some 405 ∧
      (handleTextAPI demoHandler demoJSON newResponseWriter
        { Method := utf8 "GET", Body := [] } world0).1.body =
        demoJSON.Encode [(utf8 "error", utf8 "method not allowed")]) ∧
    ((handleTextAPI demoHandler demoJSON newResponseWriter
        { Method := utf8 "OPTIONS", Body := [] } world0).2 = world0 ∧
      (handleTextAPI demoHandler demoJSON newResponseWriter
        { Method := utf8 "OPTIONS", Body := [] } world0).1.status = some 200 ∧
      (handleTextAPI demoHandler demoJSON newResponseWriter
        { Method := utf8 "OPTIONS", Body := [] } world0).1.body = []) :=
  ⟨⟨(handleTextAPI_not_post demoHandler demoJSON
        { Method := utf8 "GET", Body := [] } world0 (by decide)).1,
     (handleTextAPI_not_post demoHandler demoJSON
        { Method := utf8 "GET", Body := [] } world0 (by decide)).2.2 (by decide)⟩,
   ⟨(handleTextAPI_not_post demoHandler demoJSON
        { Method := utf8 "OPTIONS", Body := [] } world0 (by decide)).1,
     (handleTextAPI_not_post demoHandler demoJSON
        { Method := utf8 "OPTIONS", Body := [] } world0 (by decide)).2.1 (by decide)⟩⟩

/-- C7: whatever the method, the body and the outcome of the engine, the
handler sends a status line (200, 400, 405 or 500) and the headers sent with
it contain `Access-Control-Allow-Origin: *`,
`Access-Control-Allow-Methods: POST, OPTIONS`,
`Access-Control-Allow-Headers: Content-Type` and
`Content-Type: application/json`. -/
theorem handleTextAPI_headers {σ ρ : Type} (handler : DLPHandler σ ρ) (json : JSON)
    (r : Request) (world : World σ) :
    (∃ code, (handleTextAPI handler json newResponseWriter r world).1.status = some code ∧
      (code = 200 ∨ code = 400 ∨ code = 405 ∨ code = 500)) ∧
    (utf8 "Access-Control-Allow-Origin", utf8 "*") ∈
      (handleTextAPI handler json newResponseWriter r world).1.sentHeader ∧
    (utf8 "Access-Control-Allow-Methods", utf8 "POST, OPTIONS") ∈
      (handleTextAPI handler json newResponseWriter r world).1.sentHeader ∧
    (utf8 "Access-Control-Allow-Headers", utf8 "Content-Type") ∈
      (handleTextAPI handler json newResponseWriter r world).1.sentHeader ∧
    (utf8 "Content-Type", utf8 "application/json") ∈
      (handleTextAPI handler json newResponseWriter r world).1.sentHeader := by
  have key : ∃ code body world1,
      handleTextAPI handler json newResponseWriter r world =
        ({ header := corsHeader, wroteHeader := some (code, corsHeader), body := body },
          world1) ∧
      (code = 200 ∨ code = 400 ∨ code = 405 ∨ code = 500) := by
    by_cases ho : r.Method = MethodOptions
    · exact ⟨200, _, _, handleTextAPI_options handler json r world ho, by simp⟩
    · by_cases hp : r.Method = MethodPost
      · cases hdec : json.Decode r.Body with
        | mk text err =>
          cases err with
          | some e =>
            exact ⟨400, _, _, handleTextAPI_bad_body handler json r world hp text e hdec,
              by simp⟩
          | none =>
            have h := handleTextAPI_post handler json r world hp text hdec
            cases hpt : (ProcessText handler text (world.emit Event.readBody)).1.2 with
            | some e =>
              rw [hpt] at h
              exact ⟨500, _, _, h, by simp⟩
            | none =>
              rw [hpt] at h
              exact ⟨200, _, _, h, by simp⟩
      · exact ⟨405, _, _, handleTextAPI_other handler json r world ho hp, by simp⟩
  obtain ⟨code, body, world1, h, hcode⟩ := key
  rw [h]
  refine ⟨⟨code, rfl, hcode⟩, ?_, ?_, ?_, ?_⟩ <;>
    simp [ResponseWriter.sentHeader, corsHeader]

end DataMask
